import Mathlib

/-!
Verification of the orchestration kernel of a small multi-agent
customer-service system: the goal-lifecycle tracker
(`core/goal_manager.py`), the exception classification and recovery
engine (`core/exception_handler.py`), and the inter-agent communication
hub (`core/communication_hub.py`).

Times are modelled as integers (a logical clock passed to every
operation in place of `datetime.now()`); durations compare against the
same unit (`3600` = one hour).  Progress values are exact rationals.
Python `dict`s are modelled as insertion-ordered association lists with
first-match lookup and in-place overwrite.
-/

/-- Association-list lookup, mirroring Python `d[k]` / `d.get(k)`. -/
def dictLookup {α : Type} : List (String × α) → String → Option α
  | [], _ => none
  | (k', v) :: rest, k => if k' = k then some v else dictLookup rest k

/-- Association-list insert, mirroring Python `d[k] = v`: overwrites the
existing binding in place (keeping its position), otherwise appends. -/
def dictInsert {α : Type} : List (String × α) → String → α → List (String × α)
  | [], k, v => [(k, v)]
  | (k', v') :: rest, k, v =>
    if k' = k then (k, v) :: rest else (k', v') :: dictInsert rest k v

/-- `GoalStatus` from goal_manager.py. -/
inductive GoalStatus : Type
  | pending
  | in_progress
  | completed
  | failed
  | cancelled
deriving DecidableEq, Repr

/-- `Goal` dataclass from goal_manager.py.  The `subgoals` field is
never read or written by any `GoalManager` operation and is omitted. -/
structure Goal : Type where
  id : String
  description : String
  status : GoalStatus
  created_at : Int
  completed_at : Option Int
  deadline : Option Int
  metadata : List (String × String)
deriving DecidableEq, Repr

/-- The statuses removed from the active list by `update_goal_status`:
`[GoalStatus.COMPLETED, GoalStatus.FAILED, GoalStatus.CANCELLED]`. -/
def isTerminal : GoalStatus → Bool
  | .completed => true
  | .failed => true
  | .cancelled => true
  | _ => false

/-- `GoalManager` state: the goal table and the active-goal id list. -/
structure GoalManager : Type where
  goals : List (String × Goal)
  active_goals : List String
deriving DecidableEq, Repr

/-- `GoalManager.__init__`. -/
def initialGM : GoalManager := ⟨[], []⟩

/-- `GoalManager.create_goal`: builds a fresh `Goal` (status Pending,
`created_at = now`, no completion timestamp), stores it under its id
(overwriting any previous goal with that id), and appends the id to
`active_goals` when the new goal's status is Pending (always true). -/
def create_goal (mgr : GoalManager) (goal_id description : String)
    (deadline : Option Int) (metadata : List (String × String)) (now : Int) :
    GoalManager × Goal :=
  let goal : Goal :=
    { id := goal_id, description := description, status := .pending,
      created_at := now, completed_at := none, deadline := deadline,
      metadata := metadata }
  let goals' := dictInsert mgr.goals goal_id goal
  let active' :=
    if goal.status = .pending then mgr.active_goals ++ [goal_id]
    else mgr.active_goals
  (⟨goals', active'⟩, goal)

/-- The record-level part of `GoalManager.update_goal_status`
(lines 62-64): assign the new status, and assign
`completed_at = now` whenever the new status is Completed. -/
def updateGoalRecord (g : Goal) (status : GoalStatus) (now : Int) : Goal :=
  { g with
    status := status,
    completed_at := if status = .completed then some now else g.completed_at }

/-- `GoalManager.update_goal_status`: no-op on an unknown id; otherwise
updates the record, then removes the id from `active_goals` when the new
status is terminal (Python `list.remove`: first occurrence only), or
appends it when absent and the status is not Pending. -/
def update_goal_status (mgr : GoalManager) (goal_id : String)
    (status : GoalStatus) (now : Int) : GoalManager :=
  match dictLookup mgr.goals goal_id with
  | none => mgr
  | some goal =>
    let goal' := updateGoalRecord goal status now
    let goals' := dictInsert mgr.goals goal_id goal'
    let active' :=
      if isTerminal status then mgr.active_goals.erase goal_id
      else if goal_id ∉ mgr.active_goals ∧ status ≠ .pending then
        mgr.active_goals ++ [goal_id]
      else mgr.active_goals
    ⟨goals', active'⟩

/-- `GoalManager.get_active_goals`: the goals of the ids in the active
list, skipping ids missing from the table. -/
def get_active_goals (mgr : GoalManager) : List Goal :=
  mgr.active_goals.filterMap (fun gid => dictLookup mgr.goals gid)

/-- `GoalManager.is_expired` of a goal at time `now`. -/
def goalIsExpired (g : Goal) (now : Int) : Bool :=
  match g.deadline with
  | some d => now > d
  | none => false

/-- The per-goal body of `GoalManager.get_goal_progress` (after the
lookup): 1 for Completed, 0 for Failed/Cancelled, else the time ratio
capped at 1 when a positive-length deadline window exists (0 when the
window length is not positive), and the sentinel 1/2 with no deadline. -/
def goalProgressValue (g : Goal) (now : Int) : ℚ :=
  if g.status = .completed then 1
  else if g.status = .failed ∨ g.status = .cancelled then 0
  else
    match g.deadline with
    | some d =>
      let total : Int := d - g.created_at
      let elapsed : Int := now - g.created_at
      if total > 0 then min 1 ((elapsed : ℚ) / (total : ℚ)) else 0
    | none => 1/2

/-- `GoalManager.get_goal_progress`: 0 on an unknown id, else
`goalProgressValue` of the stored goal. -/
def get_goal_progress (mgr : GoalManager) (goal_id : String) (now : Int) : ℚ :=
  match dictLookup mgr.goals goal_id with
  | none => 0
  | some goal => goalProgressValue goal now

/-- The two alert kinds emitted by `monitor_goals`. -/
inductive AlertType : Type
  | expiration
  | slow_progress
deriving DecidableEq, Repr

/-- One alert dict from `monitor_goals`. -/
structure Alert : Type where
  goal_id : String
  message : String
  type : AlertType
deriving DecidableEq, Repr

/-- The alerts `monitor_goals` appends for one goal: an expiration alert
when the goal is expired and not Completed, then a slow-progress alert
when progress is below 1/10 and more than 3600 time units have elapsed
since creation. -/
def goalAlerts (g : Goal) (progress : ℚ) (now : Int) : List Alert :=
  (if goalIsExpired g now = true ∧ g.status ≠ .completed then
    [⟨g.id, "Goal \"" ++ g.description ++ "\" has expired", .expiration⟩]
   else []) ++
  (if progress < 1/10 ∧ now - g.created_at > 3600 then
    [⟨g.id, "Goal \"" ++ g.description ++ "\" progress is too slow", .slow_progress⟩]
   else [])

/-- The loop of `monitor_goals` over the active ids.  The Python body
indexes `self.goals[goal_id]` directly, so a dangling active id is a
`KeyError`: modelled as `none`. -/
def monitorGo (mgr : GoalManager) (now : Int) : List String → Option (List Alert)
  | [] => some []
  | gid :: rest =>
    match dictLookup mgr.goals gid with
    | none => none
    | some g =>
      (monitorGo mgr now rest).map
        (fun tail => goalAlerts g (get_goal_progress mgr gid now) now ++ tail)

/-- `GoalManager.monitor_goals` at time `now`. -/
def monitor_goals (mgr : GoalManager) (now : Int) : Option (List Alert) :=
  monitorGo mgr now mgr.active_goals

/-- A call against the goal-manager surface used by the lifecycle
claims. -/
inductive GoalOp : Type
  | create (goal_id description : String) (deadline : Option Int)
      (metadata : List (String × String))
  | update (goal_id : String) (status : GoalStatus)
deriving DecidableEq, Repr

/-- Execute one call at time `now`. -/
def stepOp (mgr : GoalManager) (op : GoalOp) (now : Int) : GoalManager :=
  match op with
  | .create gid d dl md => (create_goal mgr gid d dl md now).1
  | .update gid st => update_goal_status mgr gid st now

/-- Execute a call sequence under a logical clock that advances by one
unit per call (successive `datetime.now()` readings are distinct and
increasing). -/
def runOps : GoalManager → Int → List GoalOp → GoalManager
  | mgr, _, [] => mgr
  | mgr, t, op :: rest => runOps (stepOp mgr op t) (t + 1) rest

/-- Holds when every `create` call in the sequence uses an id not yet in
the goal table at the moment of the call. -/
def freshCreates : GoalManager → Int → List GoalOp → Bool
  | _, _, [] => true
  | mgr, t, op :: rest =>
    (match op with
     | GoalOp.create gid _ _ _ => dictLookup mgr.goals gid = none
     | GoalOp.update _ _ => true) && freshCreates (stepOp mgr op t) (t + 1) rest

/-- Iterate the record-level status update over a list of
(new status, time) pairs. -/
def applyUpdates (g : Goal) : List (GoalStatus × Int) → Goal
  | [] => g
  | (s, t) :: rest => applyUpdates (updateGoalRecord g s t) rest

/-- The time of the last transition to Completed in an update list, if
any. -/
def lastCompletedTime (updates : List (GoalStatus × Int)) : Option Int :=
  ((updates.filter (fun u => decide (u.1 = GoalStatus.completed))).map Prod.snd).getLast?

/-! ## Exception classification and recovery (exception_handler.py) -/

/-- `ExceptionType` enum. -/
inductive ExceptionType : Type
  | CONNECTION_ERROR
  | TIMEOUT_ERROR
  | VALIDATION_ERROR
  | BUSINESS_ERROR
  | SYSTEM_ERROR
  | UNKNOWN_ERROR
deriving DecidableEq, Repr

/-- `RecoveryStrategy` enum. -/
inductive RecoveryStrategy : Type
  | RETRY
  | FALLBACK
  | ESCALATE
  | IGNORE
deriving DecidableEq, Repr

/-- `ExceptionInfo`, restricted to the fields `apply_recovery_strategy`
and `_classify_exception` read (context, timestamp and the captured
traceback are carried but never consulted by the modelled operations). -/
structure ExceptionInfo : Type where
  exception_type : ExceptionType
  message : String
  recovery_strategy : RecoveryStrategy
deriving DecidableEq, Repr

/-- Python `pat in s` for strings: `pat` occurs in `s` as a contiguous
substring. -/
def containsSub (s pat : String) : Bool :=
  decide (pat.toList <:+: s.toList)

/-- Lower-case one character (Python `str.lower` restricted to ASCII,
which covers every Python exception type name). -/
def lowerChar (c : Char) : Char :=
  if 'A' ≤ c ∧ c ≤ 'Z' then Char.ofNat (c.toNat + 32) else c

/-- Python `s.lower()` on an ASCII string. -/
def strLower (s : String) : String :=
  ⟨s.data.map lowerChar⟩

/-- `ExceptionHandler._classify_exception`, as a function of the
exception's type name (`type(exception).__name__`). -/
def classify_exception (typeName : String) : ExceptionType :=
  let exception_str := strLower typeName
  if containsSub exception_str "connection" || containsSub exception_str "connect" then
    .CONNECTION_ERROR
  else if containsSub exception_str "timeout" then .TIMEOUT_ERROR
  else if containsSub exception_str "validation" || containsSub exception_str "value" then
    .VALIDATION_ERROR
  else if containsSub exception_str "business" then .BUSINESS_ERROR
  else if containsSub exception_str "system" then .SYSTEM_ERROR
  else .UNKNOWN_ERROR

/-- The classification precedence actually implemented: each kind with
the substring patterns that select it, in test order. -/
def classifyPrecedenceTable : List (List String × ExceptionType) :=
  [(["connection", "connect"], .CONNECTION_ERROR),
   (["timeout"], .TIMEOUT_ERROR),
   (["validation", "value"], .VALIDATION_ERROR),
   (["business"], .BUSINESS_ERROR),
   (["system"], .SYSTEM_ERROR)]

/-- First kind in a precedence table one of whose patterns occurs in
`s`; `UNKNOWN_ERROR` when none matches. -/
def firstMatchKind (s : String) : List (List String × ExceptionType) → ExceptionType
  | [] => .UNKNOWN_ERROR
  | (pats, k) :: rest =>
    if pats.any (fun p => containsSub s p) then k else firstMatchKind s rest

/-- Classification as the amended claim words it: ordered,
case-insensitive first-match over `classifyPrecedenceTable`. -/
def classifySpecAmended (typeName : String) : ExceptionType :=
  firstMatchKind (strLower typeName) classifyPrecedenceTable

/-- What a call to `apply_recovery_strategy` does, observationally:
return a value, return Python `None`, re-raise a failure produced by the
operation (or fallback), or raise the fresh escalation failure. -/
inductive RunOutcome (ε α : Type) : Type
  | ret (a : α)
  | retNone
  | raises (e : ε)
  | escalates (msg : String)
deriving DecidableEq, Repr

/-- Trace of one `apply_recovery_strategy` call: its outcome, how many
times `operation` was invoked, and the `time.sleep` durations performed
between attempts, in order. -/
structure RecoveryTrace (ε α : Type) : Type where
  outcome : RunOutcome ε α
  invocations : Nat
  sleeps : List Nat
deriving DecidableEq, Repr

/-- The recognized `kwargs` of `apply_recovery_strategy`. -/
structure RecoveryKwargs (ε α : Type) : Type where
  max_retries : Option Nat := none
  fallback_operation : Option (Unit → Except ε α) := none
  default_return_value : Option α := none

/-- The Retry loop body over the remaining attempt indices (the loop
runs over `range max_retries`): each failed attempt that is not the last
(`i == max_retries - 1`) sleeps `2 ^ i` and continues; the last failed
attempt re-raises the operation's own failure. -/
def retryFrom {ε α : Type} (operation : Nat → Except ε α) (max_retries : Nat) :
    List Nat → RecoveryTrace ε α
  | [] => ⟨.retNone, 0, []⟩
  | i :: rest =>
    match operation i with
    | .ok a => ⟨.ret a, 1, []⟩
    | .error e =>
      if i = max_retries - 1 then ⟨.raises e, 1, []⟩
      else
        let t := retryFrom operation max_retries rest
        ⟨t.outcome, t.invocations + 1, 2 ^ i :: t.sleeps⟩

/-- `ExceptionHandler.apply_recovery_strategy`.  The operation is
modelled as a function of the attempt index so successive invocations
may behave differently. -/
def apply_recovery_strategy {ε α : Type} (exception_info : ExceptionInfo)
    (operation : Nat → Except ε α) (kwargs : RecoveryKwargs ε α) :
    RecoveryTrace ε α :=
  match exception_info.recovery_strategy with
  | .RETRY =>
    let max_retries := kwargs.max_retries.getD 3
    retryFrom operation max_retries (List.range max_retries)
  | .FALLBACK =>
    match kwargs.fallback_operation with
    | some fallback_operation =>
      match fallback_operation () with
      | .ok a => ⟨.ret a, 0, []⟩
      | .error e => ⟨.raises e, 0, []⟩
    | none => ⟨.retNone, 0, []⟩
  | .ESCALATE =>
    ⟨.escalates ("Escalating exception: " ++ exception_info.message), 0, []⟩
  | .IGNORE =>
    ⟨match kwargs.default_return_value with
     | some v => .ret v
     | none => .retNone, 0, []⟩

/-! ## Communication hub (communication_hub.py, base_agent.py) -/

/-- `Message` dataclass from base_agent.py. -/
structure Message : Type where
  sender : String
  recipient : String
  content : String
  timestamp : Int
  metadata : List (String × String)
deriving DecidableEq, Repr

/-- What an agent's `receive_message` capability does when invoked:
`BaseAgent.receive_message` appends to the agent's history; an arbitrary
registered object may instead raise. -/
inductive RecvBehavior : Type
  | ok
  | fail (err : String)
deriving DecidableEq, Repr

/-- A registered participant: its message history, whether it exposes a
`history` attribute, and how its receive capability behaves. -/
structure Agent : Type where
  history : List Message
  hasHistoryAttr : Bool
  recvBehavior : RecvBehavior
deriving DecidableEq, Repr

/-- Invoke an agent's receive capability on a message. -/
def receiveMessage (a : Agent) (m : Message) : Except String Agent :=
  match a.recvBehavior with
  | .ok => .ok { a with history := a.history ++ [m] }
  | .fail e => .error e

/-- `CommunicationResult` dataclass. -/
structure CommunicationResult : Type where
  success : Bool
  message : String
  data : Option String
  error : Option String
deriving DecidableEq, Repr

/-- A topic handler: called with (content, metadata), returns a result
value or raises. -/
abbrev TopicHandler : Type := String → List (String × String) → Except String String

/-- `CommunicationHub` state. -/
structure Hub : Type where
  agents : List (String × Agent)
  message_queue : List Message
  message_handlers : List (String × TopicHandler)

/-- `CommunicationHub.__init__`. -/
def initialHub : Hub := ⟨[], [], []⟩

/-- `CommunicationHub.register_agent`. -/
def register_agent (hub : Hub) (agent_name : String) (agent : Agent) : Hub :=
  { hub with agents := dictInsert hub.agents agent_name agent }

/-- `CommunicationHub.send_message` at time `now`.  The hash-derived
`message_id` payload is abstracted to an opaque constant. -/
def send_message (hub : Hub) (sender recipient content : String)
    (metadata : List (String × String)) (now : Int) : Hub × CommunicationResult :=
  match dictLookup hub.agents recipient with
  | none =>
    (hub,
     ⟨false, "Recipient agent '" ++ recipient ++ "' not found", none,
      some ("Agent '" ++ recipient ++ "' is not registered")⟩)
  | some recipient_agent =>
    let message : Message := ⟨sender, recipient, content, now, metadata⟩
    let queue' := hub.message_queue ++ [message]
    match receiveMessage recipient_agent message with
    | .ok agent' =>
      ({ hub with agents := dictInsert hub.agents recipient agent',
                  message_queue := queue' },
       ⟨true, "Message sent to '" ++ recipient ++ "' successfully",
        some "message_id", none⟩)
    | .error e =>
      ({ hub with message_queue := queue' },
       ⟨false, "Failed to send message to '" ++ recipient ++ "'", none, some e⟩)

/-- `CommunicationHub.subscribe_to_topic`: stores/overwrites the handler
at the composite key `agent_name:topic`. -/
def subscribe_to_topic (hub : Hub) (agent_name topic : String)
    (handler : TopicHandler) : Hub :=
  { hub with
    message_handlers := dictInsert hub.message_handlers (agent_name ++ ":" ++ topic) handler }

/-- The per-handler result `publish_to_topic` builds, for a handler
stored under `handler_key`. -/
def publishResult (topic content : String) (metadata : List (String × String))
    (handler_key : String) (handler : TopicHandler) : CommunicationResult :=
  let agent_name := (handler_key.splitOn ":").headD ""
  match handler content metadata with
  | .ok result =>
    ⟨true, "Published to topic '" ++ topic ++ "' for agent '" ++ agent_name ++ "'",
     some result, none⟩
  | .error e =>
    ⟨false, "Failed to publish to topic '" ++ topic ++ "' for agent '" ++ agent_name ++ "'",
     none, some e⟩

/-- The loop of `publish_to_topic` over the stored handlers: invoke each
handler whose key contains `topic` (Python `topic in handler_key`),
catching its failure, and skip the rest. -/
def publishGo (topic content : String) (metadata : List (String × String)) :
    List (String × TopicHandler) → List CommunicationResult
  | [] => []
  | (handler_key, handler) :: rest =>
    if containsSub handler_key topic then
      publishResult topic content metadata handler_key handler ::
        publishGo topic content metadata rest
    else publishGo topic content metadata rest

/-- `CommunicationHub.publish_to_topic` (the `sender` argument is unused
by the Python body). -/
def publish_to_topic (hub : Hub) (_sender topic content : String)
    (metadata : List (String × String)) : List CommunicationResult :=
  publishGo topic content metadata hub.message_handlers

/-- Python `xs[-limit:]` on a history list: the whole list when
`limit = 0` (a `-0` slice start is `0`), else the last `limit`
elements. -/
def pySliceLast (xs : List Message) (limit : Nat) : List Message :=
  if limit = 0 then xs else xs.drop (xs.length - limit)

/-- `CommunicationHub.get_message_history`: `agent.history[-limit:]`
when the agent exists, exposes a history and that history has at least
`limit` entries; the whole history when it is shorter; `[]` otherwise. -/
def get_message_history (hub : Hub) (agent_name : String) (limit : Nat) :
    List Message :=
  match dictLookup hub.agents agent_name with
  | some agent =>
    if agent.hasHistoryAttr then
      if agent.history.length ≥ limit then pySliceLast agent.history limit
      else agent.history
    else []
  | none => []

/-! ## Shared demo states for witnesses and counterexamples -/

/-- A demo message. -/
def demoMsg : Message := ⟨"s", "a", "hi", 0, []⟩

/-- A hub with one well-behaved agent "a" holding one message. -/
def demoHub : Hub := ⟨[("a", ⟨[demoMsg], true, .ok⟩)], [], []⟩

/-- A hub with one agent "a" whose receive capability raises. -/
def demoHubFailRecv : Hub := ⟨[("a", ⟨[], true, .fail "receive boom"⟩)], [], []⟩

/-! ## C3: Retry strategy -/

/-- C3: running `apply_recovery_strategy` with the Retry strategy,
`max_retries = 3` and an operation that fails on every invocation
invokes the operation exactly 3 times, sleeps `2^0` then `2^1` time
units between consecutive attempts, and re-raises the operation's own
failure (not a wrapper) after the final attempt. -/
theorem retry_three_always_failing {ε α : Type} (exception_info : ExceptionInfo)
    (operation : Nat → Except ε α) (kwargs : RecoveryKwargs ε α) (e : ε)
    (hstrat : exception_info.recovery_strategy = RecoveryStrategy.RETRY)
    (hmax : kwargs.max_retries = some 3)
    (hop : ∀ n, operation n = Except.error e) :
    apply_recovery_strategy exception_info operation kwargs =
      ⟨RunOutcome.raises e, 3, [2 ^ 0, 2 ^ 1]⟩ := by
  unfold apply_recovery_strategy
  rw [hstrat]
  simp only [hmax, Option.getD_some]
  rw [show List.range 3 = [0, 1, 2] from rfl]
  simp [retryFrom, hop]

/-- Concrete instance of `retry_three_always_failing`. -/
theorem retry_three_always_failing_witness :
    apply_recovery_strategy (ε := String) (α := Nat)
      ⟨ExceptionType.CONNECTION_ERROR, "boom", RecoveryStrategy.RETRY⟩
      (fun _ => Except.error "fail") ⟨some 3, none, none⟩ =
      ⟨RunOutcome.raises "fail", 3, [2 ^ 0, 2 ^ 1]⟩ :=
  retry_three_always_failing _ _ _ _ rfl rfl (fun _ => rfl)

/-! ## C4: send_message to an unregistered recipient -/

/-- C4: `send_message` to a recipient absent from the registry reports
`success = false` and leaves the whole hub state (registry, pending
queue, every agent's history) unchanged. -/
theorem send_message_unregistered (hub : Hub) (sender recipient content : String)
    (metadata : List (String × String)) (now : Int)
    (h : dictLookup hub.agents recipient = none) :
    (send_message hub sender recipient content metadata now).2.success = false ∧
    (send_message hub sender recipient content metadata now).1 = hub := by
  unfold send_message
  rw [h]
  exact ⟨rfl, rfl⟩

/-- Concrete instance of `send_message_unregistered`. -/
theorem send_message_unregistered_witness :
    dictLookup demoHub.agents "b" = none ∧
    ((send_message demoHub "s" "b" "hi" [] 0).2.success = false ∧
     (send_message demoHub "s" "b" "hi" [] 0).1 = demoHub) :=
  ⟨by decide, send_message_unregistered demoHub "s" "b" "hi" [] 0 (by decide)⟩

/-! ## C10: send_message whose delivery raises still mutates the queue -/

/-- C10: when the recipient is registered but its receive capability
raises, `send_message` reports `success = false`, yet the constructed
message was already appended to the pending queue: the reported failure
is not atomic. -/
theorem send_message_failing_receive_queues (hub : Hub)
    (sender recipient content : String) (metadata : List (String × String))
    (now : Int) (a : Agent) (err : String)
    (ha : dictLookup hub.agents recipient = some a)
    (hfail : a.recvBehavior = RecvBehavior.fail err) :
    (send_message hub sender recipient content metadata now).2.success = false ∧
    (send_message hub sender recipient content metadata now).1.message_queue =
      hub.message_queue ++ [⟨sender, recipient, content, now, metadata⟩] := by
  unfold send_message
  rw [ha]
  simp [receiveMessage, hfail]

/-- Concrete instance of `send_message_failing_receive_queues`. -/
theorem send_message_failing_receive_queues_witness :
    dictLookup demoHubFailRecv.agents "a" = some ⟨[], true, .fail "receive boom"⟩ ∧
    ((send_message demoHubFailRecv "s" "a" "hi" [] 0).2.success = false ∧
     (send_message demoHubFailRecv "s" "a" "hi" [] 0).1.message_queue =
       demoHubFailRecv.message_queue ++ [⟨"s", "a", "hi", 0, []⟩]) :=
  ⟨by decide,
   send_message_failing_receive_queues demoHubFailRecv "s" "a" "hi" [] 0
     ⟨[], true, .fail "receive boom"⟩ "receive boom" (by decide) rfl⟩

/-! ## C9: publish_to_topic -/

/-- C9: `publish_to_topic` invokes exactly the stored handlers whose
composite key contains the published topic as a substring, in storage
order, and yields one result per such handler capturing that handler's
own success or failure; a raising handler therefore never prevents the
handlers after it from being invoked. -/
theorem publish_to_topic_characterization (hub : Hub) (sender topic content : String)
    (metadata : List (String × String)) :
    publish_to_topic hub sender topic content metadata =
      (hub.message_handlers.filter (fun kh => containsSub kh.1 topic)).map
        (fun kh => publishResult topic content metadata kh.1 kh.2) := by
  show publishGo topic content metadata hub.message_handlers = _
  induction hub.message_handlers with
  | nil => rfl
  | cons kh rest ih =>
    obtain ⟨handler_key, handler⟩ := kh
    by_cases hc : containsSub handler_key topic <;>
      simp [publishGo, List.filter_cons, hc, ih]

/-! ## C7: exception classification -/

/-- C7 counterexample: the type name `ValueError` contains none of the
five kind names `connection`, `timeout`, `validation`, `business`,
`system` (case-insensitively), so the claim classifies it Unknown, but
`_classify_exception` returns the Validation kind (the code also
matches the extra substrings `connect` and `value`). -/
theorem classify_exception_value_counterexample :
    classify_exception "ValueError" = ExceptionType.VALIDATION_ERROR ∧
    strLower "ValueError" = "valueerror" ∧
    (["connection", "timeout", "validation", "business", "system"].all
      (fun p => !(containsSub "valueerror" p))) = true := by
  decide

/-- C7 amended: classification is ordered, case-insensitive, first-match
substring matching over the precedence table Connection =
{connection, connect}, Timeout = {timeout}, Validation =
{validation, value}, Business = {business}, System = {system}; no match
yields Unknown. -/
theorem classify_exception_precedence (typeName : String) :
    classify_exception typeName = classifySpecAmended typeName := by
  simp only [classify_exception, classifySpecAmended, classifyPrecedenceTable,
    firstMatchKind, List.any_cons, List.any_nil, Bool.or_false]

/-! ## C8: get_message_history -/

/-- C8 counterexample: with a one-message history and `limit = 0`,
`get_message_history` returns the entire history (one entry), not zero
entries: Python's `history[-0:]` is the whole list. -/
theorem get_message_history_zero_counterexample :
    get_message_history demoHub "a" 0 = [demoMsg] ∧
    (get_message_history demoHub "a" 0).length = 1 := by
  exact ⟨by decide, by decide⟩

/-- Auxiliary: the last `n` elements of a list, as a drop. -/
theorem drop_length_sub_eq_reverse_take {α : Type} (l : List α) (n : Nat) :
    l.drop (l.length - n) = (l.reverse.take n).reverse := by
  have h := List.reverse_take (l := l.reverse) (n := n)
  rw [List.reverse_reverse, List.length_reverse] at h
  rw [h]

/-- C8 amended: for an agent that is registered and exposes a history,
a positive `limit` returns the most recent `limit` entries (all of them
when the history is shorter), while `limit = 0` returns the entire
history; an unknown agent, or one exposing no history, yields `[]`. -/
theorem get_message_history_characterization (hub : Hub) (agent_name : String)
    (limit : Nat) :
    get_message_history hub agent_name limit =
      (match dictLookup hub.agents agent_name with
       | none => []
       | some a =>
         if a.hasHistoryAttr = true then
           if limit = 0 then a.history else (a.history.reverse.take limit).reverse
         else []) := by
  unfold get_message_history
  cases h : dictLookup hub.agents agent_name with
  | none => rfl
  | some a =>
    by_cases hh : a.hasHistoryAttr = true
    · simp only [hh, if_true]
      by_cases h0 : limit = 0
      · subst h0
        simp [pySliceLast]
      · rw [if_neg h0]
        by_cases hlen : a.history.length ≥ limit
        · rw [if_pos hlen]
          unfold pySliceLast
          rw [if_neg h0, drop_length_sub_eq_reverse_take]
        · rw [if_neg hlen]
          have hle : a.history.reverse.length ≤ limit := by
            rw [List.length_reverse]
            omega
          rw [List.take_of_length_le hle, List.reverse_reverse]
    · simp [hh]

/-! ## C5: get_goal_progress against the spec's clamp formula -/

/-- Progress as the claim words it: 1.0 for Completed, 0.0 for
Failed/Cancelled, `clamp(elapsed / total_duration, 0, 1)` (measured from
creation) for another status with a deadline, the sentinel 0.5 for
another status without one, and 0.0 for an unknown id. -/
def progressClaim (mgr : GoalManager) (goal_id : String) (now : Int) : ℚ :=
  match dictLookup mgr.goals goal_id with
  | none => 0
  | some g =>
    if g.status = .completed then 1
    else if g.status = .failed ∨ g.status = .cancelled then 0
    else
      match g.deadline with
      | some d =>
        max 0 (min 1 (((now - g.created_at : Int) : ℚ) / ((d - g.created_at : Int) : ℚ)))
      | none => 1/2

/-- C5: whenever the stored goal was created no later than `now` (always
true under a monotone clock), `get_goal_progress` computes exactly the
claim's case split, including the clamped time ratio. -/
theorem get_goal_progress_spec (mgr : GoalManager) (goal_id : String) (now : Int)
    (hcreated : ∀ g, dictLookup mgr.goals goal_id = some g → g.created_at ≤ now) :
    get_goal_progress mgr goal_id now = progressClaim mgr goal_id now := by
  unfold get_goal_progress progressClaim
  cases h : dictLookup mgr.goals goal_id with
  | none => rfl
  | some g =>
    have hE : (0 : ℚ) ≤ ((now - g.created_at : Int) : ℚ) := by
      have := hcreated g h
      rw [show ((0 : ℚ) = ((0 : Int) : ℚ)) from rfl]
      rw [Int.cast_le]
      omega
    unfold goalProgressValue
    by_cases h1 : g.status = .completed
    · simp [h1]
    · by_cases h2 : g.status = .failed ∨ g.status = .cancelled
      · simp [h1, h2]
      · simp only [h1, h2, if_false]
        cases hd : g.deadline with
        | none => rfl
        | some d =>
          dsimp only
          by_cases hT : d - g.created_at > 0
          · have hTQ : (0 : ℚ) < ((d - g.created_at : Int) : ℚ) := by
              rw [show ((0 : ℚ) = ((0 : Int) : ℚ)) from rfl, Int.cast_lt]
              exact hT
            have hratio : (0 : ℚ) ≤
                ((now - g.created_at : Int) : ℚ) / ((d - g.created_at : Int) : ℚ) :=
              div_nonneg hE (le_of_lt hTQ)
            rw [if_pos hT, max_eq_right (le_min (by norm_num) hratio)]
          · have hTQ : ((d - g.created_at : Int) : ℚ) ≤ 0 := by
              rw [show ((0 : ℚ) = ((0 : Int) : ℚ)) from rfl, Int.cast_le]
              omega
            have hratio : ((now - g.created_at : Int) : ℚ) /
                ((d - g.created_at : Int) : ℚ) ≤ 0 :=
              div_nonpos_iff.mpr (Or.inl ⟨hE, hTQ⟩)
            rw [if_neg hT,
              min_eq_right (le_trans hratio (by norm_num)),
              max_eq_left hratio]

/-- A manager holding one pending goal created at time 0 with deadline
10. -/
def demoProgressMgr : GoalManager :=
  runOps initialGM 0 [.create "g" "d" (some 10) []]

/-- Concrete instance of `get_goal_progress_spec`. -/
theorem get_goal_progress_spec_witness :
    get_goal_progress demoProgressMgr "g" 5 = progressClaim demoProgressMgr "g" 5 :=
  get_goal_progress_spec demoProgressMgr "g" 5 (by
    intro g h
    rw [show dictLookup demoProgressMgr.goals "g" =
        some ⟨"g", "d", .pending, 0, none, some 10, []⟩ from by decide] at h
    injection h with h'
    rw [← h']
    decide)

/-! ## C2: the completed timestamp -/

/-- C2 counterexample: after `create` then `update(Completed)` the
stored completed timestamp is 1; a second `update(Completed)` changes it
to 2, so it is not set exactly once and is changed by a later
transition. -/
theorem completed_at_overwritten_counterexample :
    (dictLookup (runOps initialGM 0
        [.create "g" "" none [], .update "g" .completed]).goals "g").map
      Goal.completed_at = some (some 1) ∧
    (dictLookup (runOps initialGM 0
        [.create "g" "" none [], .update "g" .completed,
         .update "g" .completed]).goals "g").map
      Goal.completed_at = some (some 2) := by
  decide

/-- Auxiliary: the last element of a cons. -/
theorem getLast?_cons_eq {α : Type} (a : α) (l : List α) :
    (a :: l).getLast? = some (l.getLast?.getD a) := by
  induction l generalizing a with
  | nil => rfl
  | cons b m ih =>
    rw [List.getLast?_cons_cons, ih b]
    simp

/-- Auxiliary: iterating the record-level status update leaves
`completed_at` at the time of the last transition to Completed, or at
its previous value when no such transition occurs. -/
theorem applyUpdates_completed_at (updates : List (GoalStatus × Int)) (g : Goal) :
    (applyUpdates g updates).completed_at =
      (lastCompletedTime updates).elim g.completed_at some := by
  induction updates generalizing g with
  | nil => rfl
  | cons u rest ih =>
    obtain ⟨s, t⟩ := u
    rw [show applyUpdates g ((s, t) :: rest) =
        applyUpdates (updateGoalRecord g s t) rest from rfl, ih]
    by_cases hs : s = GoalStatus.completed
    · subst hs
      unfold lastCompletedTime
      rw [List.filter_cons, if_pos (by simp), List.map_cons, getLast?_cons_eq]
      cases hM : ((rest.filter
          (fun u => decide (u.1 = GoalStatus.completed))).map Prod.snd).getLast? with
      | none => simp [updateGoalRecord]
      | some x => simp
    · unfold lastCompletedTime
      rw [List.filter_cons, if_neg (by simp [hs])]
      have : (updateGoalRecord g s t).completed_at = g.completed_at := by
        simp [updateGoalRecord, hs]
      rw [this]

/-- Auxiliary: a last Completed time exists iff some update in the list
transitions to Completed. -/
theorem lastCompletedTime_isSome_iff (updates : List (GoalStatus × Int)) :
    (lastCompletedTime updates).isSome = true ↔
      ∃ u ∈ updates, u.1 = GoalStatus.completed := by
  unfold lastCompletedTime
  rw [List.getLast?_isSome]
  constructor
  · intro h
    by_contra hc
    push_neg at hc
    apply h
    rw [List.map_eq_nil_iff, List.filter_eq_nil_iff]
    intro u hu
    simp [hc u hu]
  · rintro ⟨u, hu, hcu⟩ hnil
    rw [List.map_eq_nil_iff, List.filter_eq_nil_iff] at hnil
    exact (hnil u hu) (by simp [hcu])

/-- C2 amended: starting from a goal with no completed timestamp, after
any sequence of status updates the completed timestamp equals the time
of the LAST transition to Completed (it is re-assigned on every such
transition, not set exactly once on the first); consequently it is set
iff the status has reached Completed at least once, and it is never
cleared by a later transition. -/
theorem completed_at_tracks_last_completed (g : Goal)
    (updates : List (GoalStatus × Int)) (h : g.completed_at = none) :
    (applyUpdates g updates).completed_at = lastCompletedTime updates ∧
    ((applyUpdates g updates).completed_at.isSome = true ↔
      ∃ u ∈ updates, u.1 = GoalStatus.completed) := by
  have key := applyUpdates_completed_at updates g
  rw [h] at key
  have keq : (applyUpdates g updates).completed_at = lastCompletedTime updates := by
    rw [key]
    cases lastCompletedTime updates with
    | none => rfl
    | some x => rfl
  refine ⟨keq, ?_⟩
  rw [keq]
  exact lastCompletedTime_isSome_iff updates

/-- A fresh pending goal used by the lifecycle witnesses. -/
def demoGoal : Goal := ⟨"g", "", .pending, 0, none, none, []⟩

/-- A demo update sequence: Completed at time 1, then Failed at time 2. -/
def demoUpdates : List (GoalStatus × Int) := [(.completed, 1), (.failed, 2)]

/-- Concrete instance of `completed_at_tracks_last_completed`:
transitions Completed-at-1 then Failed-at-2 leave the timestamp at 1. -/
theorem completed_at_tracks_last_completed_witness :
    demoGoal.completed_at = none ∧
    ((applyUpdates demoGoal demoUpdates).completed_at =
      lastCompletedTime demoUpdates ∧
     ((applyUpdates demoGoal demoUpdates).completed_at.isSome = true ↔
       ∃ u ∈ demoUpdates, u.1 = GoalStatus.completed)) :=
  ⟨rfl, completed_at_tracks_last_completed demoGoal demoUpdates rfl⟩

/-! ## C1: terminal goals and the active index -/

/-- C1 counterexample: creating the same id twice puts two copies of it
in the active index; completing the goal removes only the first copy,
so `get_active_goals` returns a goal whose status is Completed. -/
theorem active_goal_terminal_counterexample :
    (get_active_goals (runOps initialGM 0
        [.create "g" "" none [], .create "g" "" none [],
         .update "g" .completed])).map Goal.status = [GoalStatus.completed] ∧
    (runOps initialGM 0
        [.create "g" "" none [], .create "g" "" none [],
         .update "g" .completed]).active_goals = ["g"] := by
  decide

/-- Auxiliary: lookup after insert. -/
theorem dictLookup_insert {α : Type} (d : List (String × α)) (k k' : String)
    (v : α) :
    dictLookup (dictInsert d k v) k' = if k = k' then some v else dictLookup d k' := by
  induction d with
  | nil =>
    by_cases h : k = k' <;> simp [dictInsert, dictLookup, h]
  | cons kv rest ih =>
    obtain ⟨k₀, v₀⟩ := kv
    by_cases h₀ : k₀ = k
    · subst h₀
      by_cases h' : k₀ = k' <;> simp [dictInsert, dictLookup, h']
    · by_cases h' : k₀ = k'
      · subst h'
        have hne : ¬k = k₀ := fun h => h₀ h.symm
        simp [dictInsert, dictLookup, h₀, hne]
      · simp [dictInsert, dictLookup, h₀, h', ih]

/-- The inductive invariant behind the amended claim: the active index
has no duplicate ids, and every id in it is bound in the goal table to a
goal whose current status is not terminal. -/
def ActiveOk (mgr : GoalManager) : Prop :=
  mgr.active_goals.Nodup ∧
  ∀ gid ∈ mgr.active_goals,
    ∃ g, dictLookup mgr.goals gid = some g ∧ isTerminal g.status = false

/-- Auxiliary: `create_goal` on an id not yet in the table preserves the
invariant. -/
theorem activeOk_create (mgr : GoalManager) (goal_id description : String)
    (deadline : Option Int) (metadata : List (String × String)) (now : Int)
    (hinv : ActiveOk mgr) (hfresh : dictLookup mgr.goals goal_id = none) :
    ActiveOk (create_goal mgr goal_id description deadline metadata now).1 := by
  obtain ⟨hnd, hmem⟩ := hinv
  have hnotin : goal_id ∉ mgr.active_goals := by
    intro hin
    obtain ⟨g, hg, _⟩ := hmem goal_id hin
    rw [hfresh] at hg
    cases hg
  constructor
  · show (mgr.active_goals ++ [goal_id]).Nodup
    rw [List.nodup_append]
    refine ⟨hnd, List.nodup_singleton goal_id, ?_⟩
    intro x hx hx'
    rw [List.mem_singleton] at hx'
    subst hx'
    exact hnotin hx
  · intro gid hgid
    show ∃ g, dictLookup (dictInsert mgr.goals goal_id _) gid = some g ∧ _
    rw [dictLookup_insert]
    have hgid' : gid ∈ mgr.active_goals ++ [goal_id] := hgid
    rw [List.mem_append, List.mem_singleton] at hgid'
    cases hgid' with
    | inl hin =>
      have hne : ¬goal_id = gid := by
        intro h
        subst h
        exact hnotin hin
      rw [if_neg hne]
      exact hmem gid hin
    | inr heq =>
      subst heq
      rw [if_pos rfl]
      exact ⟨_, rfl, rfl⟩

/-- Auxiliary: `update_goal_status` preserves the invariant
unconditionally. -/
theorem activeOk_update (mgr : GoalManager) (goal_id : String)
    (status : GoalStatus) (now : Int) (hinv : ActiveOk mgr) :
    ActiveOk (update_goal_status mgr goal_id status now) := by
  obtain ⟨hnd, hmem⟩ := hinv
  unfold update_goal_status
  cases hg : dictLookup mgr.goals goal_id with
  | none => exact ⟨hnd, hmem⟩
  | some goal =>
    by_cases hterm : isTerminal status = true
    · rw [if_pos hterm]
      constructor
      · exact hnd.erase goal_id
      · intro gid hgid
        have hne : gid ≠ goal_id ∧ gid ∈ mgr.active_goals :=
          (hnd.mem_erase_iff).mp hgid
        rw [dictLookup_insert, if_neg (fun h => hne.1 h.symm)]
        exact hmem gid hne.2
    · rw [if_neg hterm]
      by_cases happ : goal_id ∉ mgr.active_goals ∧ status ≠ .pending
      · rw [if_pos happ]
        constructor
        · rw [List.nodup_append]
          refine ⟨hnd, List.nodup_singleton goal_id, ?_⟩
          intro x hx hx'
          rw [List.mem_singleton] at hx'
          subst hx'
          exact happ.1 hx
        · intro gid hgid
          rw [List.mem_append, List.mem_singleton] at hgid
          rw [dictLookup_insert]
          cases hgid with
          | inl hin =>
            have hne : ¬goal_id = gid := by
              intro h
              subst h
              exact happ.1 hin
            rw [if_neg hne]
            exact hmem gid hin
          | inr heq =>
            subst heq
            rw [if_pos rfl]
            refine ⟨_, rfl, ?_⟩
            show isTerminal (updateGoalRecord goal status now).status = false
            simp only [updateGoalRecord]
            simp only [Bool.not_eq_true] at hterm
            exact hterm
      · rw [if_neg happ]
        refine ⟨hnd, ?_⟩
        intro gid hgid
        rw [dictLookup_insert]
        by_cases heq : goal_id = gid
        · rw [if_pos heq]
          refine ⟨_, rfl, ?_⟩
          show isTerminal (updateGoalRecord goal status now).status = false
          simp only [updateGoalRecord]
          simp only [Bool.not_eq_true] at hterm
          exact hterm
        · rw [if_neg heq]
          exact hmem gid hgid

/-- Auxiliary: running a sequence whose creates are all fresh preserves
the invariant. -/
theorem activeOk_runOps (ops : List GoalOp) :
    ∀ (mgr : GoalManager) (t : Int), ActiveOk mgr →
      freshCreates mgr t ops = true → ActiveOk (runOps mgr t ops) := by
  induction ops with
  | nil => intro mgr t hinv _; exact hinv
  | cons op rest ih =>
    intro mgr t hinv hfresh
    unfold freshCreates at hfresh
    rw [Bool.and_eq_true] at hfresh
    refine ih (stepOp mgr op t) (t + 1) ?_ hfresh.2
    cases op with
    | create gid d dl md =>
      have hf : dictLookup mgr.goals gid = none := by
        have := hfresh.1
        simpa using this
      exact activeOk_create mgr gid d dl md t hinv hf
    | update gid st => exact activeOk_update mgr gid st t hinv

/-- C1 amended: provided `create_goal` is never called with an id
already present in the goal table, `get_active_goals()` never includes a
goal whose current status is Completed, Failed, or Cancelled.  (The
unconditional claim fails: a duplicate `create_goal` appends a second
index entry and a terminal update removes only the first, see the
counterexample.) -/
theorem active_goals_nonterminal_of_fresh_creates (ops : List GoalOp)
    (hfresh : freshCreates initialGM 0 ops = true) :
    ∀ g ∈ get_active_goals (runOps initialGM 0 ops), isTerminal g.status = false := by
  have hinv : ActiveOk (runOps initialGM 0 ops) :=
    activeOk_runOps ops initialGM 0 ⟨List.nodup_nil, by intro gid h; cases h⟩ hfresh
  intro g hgmem
  unfold get_active_goals at hgmem
  rw [List.mem_filterMap] at hgmem
  obtain ⟨gid, hgid, hlook⟩ := hgmem
  obtain ⟨g', hg', hterm⟩ := hinv.2 gid hgid
  rw [hlook] at hg'
  cases hg'
  exact hterm

/-- Concrete instance of `active_goals_nonterminal_of_fresh_creates`. -/
theorem active_goals_nonterminal_witness :
    freshCreates initialGM 0 [.create "g" "" none [], .update "g" .in_progress] = true ∧
    ∀ g ∈ get_active_goals (runOps initialGM 0
        [.create "g" "" none [], .update "g" .in_progress]),
      isTerminal g.status = false :=
  ⟨by decide, active_goals_nonterminal_of_fresh_creates
    [.create "g" "" none [], .update "g" .in_progress] (by decide)⟩

/-! ## C6: monitor_goals alerts -/

/-- A manager holding a Failed goal (id "g", deadline 5) that is no
longer in the active index. -/
def demoFailedMgr : GoalManager :=
  runOps initialGM 0 [.create "g" "d" (some 5) [], .update "g" .failed]

/-- C6 counterexample: the Failed goal's deadline (5) has passed at time
10 and its status is not Completed, so the claim requires an expiration
alert for it, but `monitor_goals` emits none: the goal left the active
index and only active ids are scanned. -/
theorem monitor_skips_inactive_counterexample :
    monitor_goals demoFailedMgr 10 = some [] ∧
    (dictLookup demoFailedMgr.goals "g").map Goal.status = some GoalStatus.failed ∧
    (dictLookup demoFailedMgr.goals "g").map (fun g => goalIsExpired g 10) = some true := by
  decide

/-- Auxiliary: every alert built for a goal carries that goal's id. -/
theorem goalAlerts_goal_id (g : Goal) (progress : ℚ) (now : Int) :
    ∀ a ∈ goalAlerts g progress now, a.goal_id = g.id := by
  intro a ha
  unfold goalAlerts at ha
  rw [List.mem_append] at ha
  cases ha with
  | inl h =>
    by_cases hc : goalIsExpired g now = true ∧ g.status ≠ .completed
    · rw [if_pos hc, List.mem_singleton] at h
      subst h
      rfl
    · rw [if_neg hc] at h
      cases h
  | inr h =>
    by_cases hc : progress < 1/10 ∧ now - g.created_at > 3600
    · rw [if_pos hc, List.mem_singleton] at h
      subst h
      rfl
    · rw [if_neg hc] at h
      cases h

/-- Auxiliary: a goal's alert batch has an expiration entry iff the goal
is expired and not Completed. -/
theorem goalAlerts_expiration_iff (g : Goal) (progress : ℚ) (now : Int) :
    (∃ a ∈ goalAlerts g progress now, a.type = AlertType.expiration) ↔
      (goalIsExpired g now = true ∧ g.status ≠ .completed) := by
  constructor
  · rintro ⟨a, ha, htype⟩
    by_cases hexp : goalIsExpired g now = true ∧ g.status ≠ .completed
    · exact hexp
    · exfalso
      unfold goalAlerts at ha
      rw [List.mem_append, if_neg hexp] at ha
      cases ha with
      | inl h => cases h
      | inr h =>
        by_cases hslow : progress < 1/10 ∧ now - g.created_at > 3600
        · rw [if_pos hslow, List.mem_singleton] at h
          subst h
          simp at htype
        · rw [if_neg hslow] at h
          cases h
  · intro hcond
    refine ⟨⟨g.id, "Goal \"" ++ g.description ++ "\" has expired", .expiration⟩, ?_, rfl⟩
    unfold goalAlerts
    rw [List.mem_append, if_pos hcond]
    exact Or.inl (List.mem_singleton_self _)

/-- Auxiliary: a goal's alert batch has a slow-progress entry iff the
progress is below 1/10 and more than one hour has elapsed. -/
theorem goalAlerts_slow_iff (g : Goal) (progress : ℚ) (now : Int) :
    (∃ a ∈ goalAlerts g progress now, a.type = AlertType.slow_progress) ↔
      (progress < 1/10 ∧ now - g.created_at > 3600) := by
  constructor
  · rintro ⟨a, ha, htype⟩
    by_cases hslow : progress < 1/10 ∧ now - g.created_at > 3600
    · exact hslow
    · exfalso
      unfold goalAlerts at ha
      rw [List.mem_append, if_neg hslow] at ha
      cases ha with
      | inl h =>
        by_cases hexp : goalIsExpired g now = true ∧ g.status ≠ .completed
        · rw [if_pos hexp, List.mem_singleton] at h
          subst h
          simp at htype
        · rw [if_neg hexp] at h
          cases h
      | inr h => cases h
  · intro hcond
    refine ⟨⟨g.id, "Goal \"" ++ g.description ++ "\" progress is too slow",
      .slow_progress⟩, ?_, rfl⟩
    unfold goalAlerts
    rw [List.mem_append, if_pos hcond]
    exact Or.inr (List.mem_singleton_self _)

/-- Auxiliary: membership in a successful `monitorGo` run is membership
in some scanned goal's alert batch. -/
theorem monitorGo_mem (mgr : GoalManager) (now : Int) (l : List String)
    (alerts : List Alert) (h : monitorGo mgr now l = some alerts) (a : Alert) :
    a ∈ alerts ↔ ∃ gid ∈ l, ∃ g, dictLookup mgr.goals gid = some g ∧
      a ∈ goalAlerts g (get_goal_progress mgr gid now) now := by
  induction l generalizing alerts with
  | nil =>
    rw [show monitorGo mgr now [] = some [] from rfl] at h
    injection h with h
    subst h
    simp
  | cons gid rest ih =>
    unfold monitorGo at h
    cases hlook : dictLookup mgr.goals gid with
    | none =>
      rw [hlook] at h
      cases h
    | some g =>
      rw [hlook] at h
      rw [Option.map_eq_some'] at h
      obtain ⟨tail, htail, halerts⟩ := h
      subst halerts
      rw [List.mem_append, ih tail htail]
      constructor
      · rintro (hin | ⟨gid', hgid', g', hg', hag'⟩)
        · exact ⟨gid, List.mem_cons_self gid rest, g, hlook, hin⟩
        · exact ⟨gid', List.mem_cons_of_mem gid hgid', g', hg', hag'⟩
      · rintro ⟨gid', hgid', g', hg', hag'⟩
        rw [List.mem_cons] at hgid'
        cases hgid' with
        | inl heq =>
          subst heq
          rw [hlook] at hg'
          injection hg' with hg'
          subst hg'
          exact Or.inl hag'
        | inr hmem => exact Or.inr ⟨gid', hmem, g', hg', hag'⟩

/-- C6 amended: restricted to the ids the scan visits — provided every
stored goal's `id` field equals its table key (true of every goal the
manager itself stores), for every id in the ACTIVE index the alert list
of a successful `monitor_goals` run contains an expiration alert for it
iff its goal is expired and not Completed, and a slow-progress alert for
it iff its progress is below 1/10 and more than one hour has elapsed
since creation; one goal may satisfy both and then emits both.  Goals
absent from the active index are never alerted (see the
counterexample). -/
theorem monitor_goals_alert_iff (mgr : GoalManager) (now : Int)
    (alerts : List Alert) (hmon : monitor_goals mgr now = some alerts)
    (hkeys : ∀ k g, dictLookup mgr.goals k = some g → g.id = k)
    (gid : String) (g : Goal) (hactive : gid ∈ mgr.active_goals)
    (hg : dictLookup mgr.goals gid = some g) :
    ((∃ a ∈ alerts, a.goal_id = gid ∧ a.type = AlertType.expiration) ↔
      (goalIsExpired g now = true ∧ g.status ≠ .completed)) ∧
    ((∃ a ∈ alerts, a.goal_id = gid ∧ a.type = AlertType.slow_progress) ↔
      (goalProgressValue g now < 1/10 ∧ now - g.created_at > 3600)) := by
  have hmemiff := monitorGo_mem mgr now mgr.active_goals alerts hmon
  have hid : g.id = gid := hkeys gid g hg
  have hprog : get_goal_progress mgr gid now = goalProgressValue g now := by
    unfold get_goal_progress
    rw [hg]
  constructor
  · constructor
    · rintro ⟨a, ha, haid, hatype⟩
      rw [hmemiff a] at ha
      obtain ⟨gid', _, g', hg', hag'⟩ := ha
      have h1 : a.goal_id = g'.id := goalAlerts_goal_id g' _ now a hag'
      have h2 : g'.id = gid' := hkeys gid' g' hg'
      have hsame : gid' = gid := by rw [← h2, ← h1, haid]
      subst hsame
      rw [hg] at hg'
      injection hg' with hg'
      subst hg'
      exact (goalAlerts_expiration_iff g _ now).mp ⟨a, hag', hatype⟩
    · intro hcond
      obtain ⟨a, ha, hatype⟩ :=
        (goalAlerts_expiration_iff g (get_goal_progress mgr gid now) now).mpr hcond
      have haid : a.goal_id = g.id := goalAlerts_goal_id g _ now a ha
      refine ⟨a, ?_, by rw [haid, hid], hatype⟩
      rw [hmemiff a]
      exact ⟨gid, hactive, g, hg, ha⟩
  · constructor
    · rintro ⟨a, ha, haid, hatype⟩
      rw [hmemiff a] at ha
      obtain ⟨gid', _, g', hg', hag'⟩ := ha
      have h1 : a.goal_id = g'.id := goalAlerts_goal_id g' _ now a hag'
      have h2 : g'.id = gid' := hkeys gid' g' hg'
      have hsame : gid' = gid := by rw [← h2, ← h1, haid]
      subst hsame
      rw [hg] at hg'
      injection hg' with hg'
      subst hg'
      rw [← hprog]
      exact (goalAlerts_slow_iff g _ now).mp ⟨a, hag', hatype⟩
    · intro hcond
      rw [← hprog] at hcond
      obtain ⟨a, ha, hatype⟩ :=
        (goalAlerts_slow_iff g (get_goal_progress mgr gid now) now).mpr hcond
      have haid : a.goal_id = g.id := goalAlerts_goal_id g _ now a ha
      refine ⟨a, ?_, by rw [haid, hid], hatype⟩
      rw [hmemiff a]
      exact ⟨gid, hactive, g, hg, ha⟩

/-- An active goal whose deadline (1) precedes its creation (5): at time
4000 it is both expired and slow. -/
def demoBothGoal : Goal := ⟨"g", "d", .pending, 5, none, some 1, []⟩

/-- A manager whose active index holds `demoBothGoal`. -/
def demoBothMgr : GoalManager := ⟨[("g", demoBothGoal)], ["g"]⟩

/-- The two alerts `monitor_goals` emits for `demoBothGoal` at 4000. -/
def demoBothAlerts : List Alert :=
  [⟨"g", "Goal \"d\" has expired", .expiration⟩,
   ⟨"g", "Goal \"d\" progress is too slow", .slow_progress⟩]

/-- Concrete instance of `monitor_goals_alert_iff`, on a goal emitting
both alerts in the same call. -/
theorem monitor_goals_alert_iff_witness :
    monitor_goals demoBothMgr 4000 = some demoBothAlerts ∧
    (((∃ a ∈ demoBothAlerts, a.goal_id = "g" ∧ a.type = AlertType.expiration) ↔
       (goalIsExpired demoBothGoal 4000 = true ∧ demoBothGoal.status ≠ .completed)) ∧
     ((∃ a ∈ demoBothAlerts, a.goal_id = "g" ∧ a.type = AlertType.slow_progress) ↔
       (goalProgressValue demoBothGoal 4000 < 1/10 ∧
        4000 - demoBothGoal.created_at > 3600))) :=
  ⟨by
    norm_num [monitor_goals, monitorGo, demoBothMgr, demoBothGoal, demoBothAlerts,
      dictLookup, goalAlerts, get_goal_progress, goalProgressValue, goalIsExpired,
      show GoalStatus.pending ≠ GoalStatus.completed from by decide]
    decide,
   monitor_goals_alert_iff demoBothMgr 4000 demoBothAlerts
     (by
       norm_num [monitor_goals, monitorGo, demoBothMgr, demoBothGoal, demoBothAlerts,
         dictLookup, goalAlerts, get_goal_progress, goalProgressValue, goalIsExpired,
         show GoalStatus.pending ≠ GoalStatus.completed from by decide]
       decide)
     (by
       intro k g h
       simp only [demoBothMgr, dictLookup] at h
       by_cases hk : "g" = k
       · rw [if_pos hk] at h
         injection h with h'
         rw [← h', ← hk]
         decide
       · rw [if_neg hk] at h
         simp at h)
     "g" demoBothGoal (by decide) (by decide)⟩
